import Mathlib

/-!
Shallow embedding of the comparison/diff engine of dis-search-test-bed
(package shared/comparison: calculator.go, comparison.go, formatter.go,
and the models package), together with theorems about it.

Modelling conventions:
* Go `int` is `Int` (ranks) or `Nat` (counters that only ever increase from 0).
* Go `float64` is `ℚ`; the only float arithmetic in the engine is division of
  an integer total by an integer count, which is exact.
* Go `time.Time` is the formatted timestamp `String` (it is only ever printed).
* Go maps (`map[string]models.SearchResult`, `map[string]bool`) are functions
  `String → Option SearchResult` / `String → Bool` built by left-to-right
  insertion, so later inserts overwrite earlier ones exactly as in Go.
-/

/-- models.SearchResult: one ranked hit. -/
structure SearchResult where
  rank : Int
  title : String
  uri : String
  date : String
  contentType : String
  algorithm : String
  score : ℚ
deriving DecidableEq

/-- models.QueryResults: one query's full result list (order is the ranking). -/
structure QueryResults where
  query : String
  algorithm : String
  description : String
  runAt : String
  results : List SearchResult
deriving DecidableEq

/-- models.ComparisonStats: aggregate counts for one historical pair. -/
structure ComparisonStats where
  query : String
  algorithm : String
  totalResults : Nat
  newResults : Nat
  removedCount : Nat
  improvedCount : Nat
  worsedCount : Nat
  unchangedCount : Nat
  avgRankChange : ℚ
deriving DecidableEq

/-- comparison.CrossQueryStats: aggregate counts for one cross-query pair. -/
structure CrossQueryStats where
  query1Name : String
  query2Name : String
  commonResults : Nat
  onlyInQuery1 : Nat
  onlyInQuery2 : Nat
  rankingDiffCount : Nat
  avgRankingDiff : ℚ
deriving DecidableEq

/-- comparison.Options. -/
structure Options where
  showUnchanged : Bool
  highlightNew : Bool
  showScores : Bool
  maxRankDisplay : Int
deriving DecidableEq

/-- comparison.Summary. -/
structure Summary where
  mode : String
  newResults : Nat
  removedResults : Nat
  improvedRankings : Nat
  worsenedRankings : Nat
deriving DecidableEq

/-- comparison.Mode (ModeHistorical, ModeCrossQuery, ModeBoth). -/
inductive Mode where
  | historical
  | crossQuery
  | both
deriving DecidableEq

/-- comparison.Comparison. -/
structure Comparison where
  current : List QueryResults
  previous : List QueryResults
  options : Options
  mode : Mode

/-- comparison.NewComparison. -/
def NewComparison (current previous : List QueryResults) (options : Options)
    (mode : Mode) : Comparison :=
  { current := current, previous := previous, options := options, mode := mode }

/-- Go map store `m[r.URI] = r`: a later insert overwrites an earlier one. -/
def mapInsert (m : String → Option SearchResult) (r : SearchResult) :
    String → Option SearchResult :=
  fun u => if u = r.uri then some r else m u

/-- makeURIMap (formatter.go) and the inline `prevMap` / `q1Map` / `q2Map`
loops of calculator.go: build a uri-keyed lookup from a result list. -/
def makeURIMap (results : List SearchResult) : String → Option SearchResult :=
  results.foldl mapInsert (fun _ => none)

/-- Go set store `m[u] = true`. -/
def setInsert (m : String → Bool) (u : String) : String → Bool :=
  fun v => if v = u then true else m v

/-- makeURISet (formatter.go) and the inline `currURIs` loops: uri membership.
A missing key reads as `false`, as a Go `map[string]bool` does. -/
def makeURISet (results : List SearchResult) : String → Bool :=
  results.foldl (fun m r => setInsert m r.uri) (fun _ => false)

/-- One iteration of the classification loop of Calculator.CalculateHistorical:
`found` is the map lookup for the item's uri; exactly one counter is bumped and
the absolute rank change is accumulated (Go: `int(math.Abs(float64(rankChange)))`,
which for 1-based ranks is just the absolute value). -/
def histStep (acc : ComparisonStats × Nat) (found : Option SearchResult)
    (r : SearchResult) : ComparisonStats × Nat :=
  match found with
  | some prevResult =>
    let rankChange := prevResult.rank - r.rank
    let total := acc.2 + rankChange.natAbs
    if 0 < rankChange then ({ acc.1 with improvedCount := acc.1.improvedCount + 1 }, total)
    else if rankChange < 0 then ({ acc.1 with worsedCount := acc.1.worsedCount + 1 }, total)
    else ({ acc.1 with unchangedCount := acc.1.unchangedCount + 1 }, total)
  | none => ({ acc.1 with newResults := acc.1.newResults + 1 }, acc.2)

/-- The stats value CalculateHistorical starts from: Query, Algorithm and
TotalResults are filled in, every counter is zero. -/
def initStats (curr : QueryResults) : ComparisonStats :=
  { query := curr.query, algorithm := curr.algorithm
    totalResults := curr.results.length
    newResults := 0, removedCount := 0, improvedCount := 0, worsedCount := 0
    unchangedCount := 0, avgRankChange := 0 }

/-- Calculator.CalculateHistorical with the previous-run lookup abstracted out
(the Go body builds `prevMap` first and then only consults it through lookups).
The Go code fills `currURIs` inside the classification loop and reads it only in
the removed loop that runs after the full population, so building the complete
set up front is the same computation. -/
def calcHistoricalWith (lookup : String → Option SearchResult)
    (curr prev : QueryResults) : ComparisonStats :=
  let sc := curr.results.foldl (fun acc r => histStep acc (lookup r.uri) r) (initStats curr, 0)
  let currURIs := makeURISet curr.results
  let stats := { sc.1 with removedCount := prev.results.countP (fun p => !(currURIs p.uri)) }
  if 0 < curr.results.length then
    { stats with avgRankChange := (sc.2 : ℚ) / (curr.results.length : ℚ) }
  else stats

/-- Calculator.CalculateHistorical (calculator.go; CalculateStats in
cmd/diff.go is line-for-line the same computation). -/
def CalculateHistorical (curr prev : QueryResults) : ComparisonStats :=
  calcHistoricalWith (makeURIMap prev.results) curr prev

/-- One iteration of the common/diff loop of Calculator.CalculateCrossQuery. -/
def crossStep (q2Map : String → Option SearchResult) (acc : CrossQueryStats × Nat)
    (r1 : SearchResult) : CrossQueryStats × Nat :=
  match q2Map r1.uri with
  | some r2 =>
    let s := { acc.1 with commonResults := acc.1.commonResults + 1 }
    if r1.rank ≠ r2.rank then
      ({ s with rankingDiffCount := s.rankingDiffCount + 1 }, acc.2 + (r1.rank - r2.rank).natAbs)
    else (s, acc.2)
  | none => ({ acc.1 with onlyInQuery1 := acc.1.onlyInQuery1 + 1 }, acc.2)

/-- Calculator.CalculateCrossQuery (calculator.go). -/
def CalculateCrossQuery (q1 q2 : QueryResults) : CrossQueryStats :=
  let q1Map := makeURIMap q1.results
  let q2Map := makeURIMap q2.results
  let init : CrossQueryStats :=
    { query1Name := q1.query, query2Name := q2.query
      commonResults := 0, onlyInQuery1 := 0, onlyInQuery2 := 0
      rankingDiffCount := 0, avgRankingDiff := 0 }
  let sc : CrossQueryStats × Nat := q1.results.foldl (crossStep q2Map) (init, 0)
  let stats : CrossQueryStats :=
    { sc.1 with onlyInQuery2 := q2.results.countP (fun r2 => (q1Map r2.uri).isNone) }
  if 0 < stats.rankingDiffCount then
    { stats with avgRankingDiff := (sc.2 : ℚ) / (stats.rankingDiffCount : ℚ) }
  else stats

/-- Reading key u from a map built by left-to-right insertion into `m` returns
the last write for u, falling back to `m u` when rs never writes u. -/
theorem foldl_mapInsert_apply (rs : List SearchResult) (m : String → Option SearchResult)
    (u : String) :
    (rs.foldl mapInsert m) u = (rs.reverse.find? (fun r => r.uri == u)).or (m u) := by
  induction rs generalizing m with
  | nil => simp
  | cons r rest ih =>
    simp only [List.foldl_cons, ih, List.reverse_cons, List.find?_append, Option.or_assoc]
    congr 1
    by_cases h : u = r.uri
    · simp [mapInsert, h, List.find?]
    · have hbeq : (r.uri == u) = false := by
        simp only [beq_eq_false_iff_ne, Ne]
        exact fun e => h e.symm
      simp [mapInsert, h, List.find?, hbeq]

/-- The uri lookup of makeURIMap is last-write-wins: it returns the last
element of rs bearing the requested uri. -/
theorem makeURIMap_eq_find_last (rs : List SearchResult) (u : String) :
    makeURIMap rs u = rs.reverse.find? (fun r => r.uri == u) := by
  rw [makeURIMap, foldl_mapInsert_apply]
  simp

/-- Reading the uri set built by left-to-right insertion. -/
theorem foldl_setInsert_apply (rs : List SearchResult) (m : String → Bool) (u : String) :
    (rs.foldl (fun m r => setInsert m r.uri) m) u = (m u || rs.any (fun r => r.uri == u)) := by
  induction rs generalizing m with
  | nil => simp
  | cons r rest ih =>
    simp only [List.foldl_cons, ih, List.any_cons]
    by_cases h : u = r.uri
    · have hbeq : (r.uri == u) = true := by simp [h]
      simp [setInsert, h, hbeq]
    · have hbeq : (r.uri == u) = false := by
        simp only [beq_eq_false_iff_ne, Ne]
        exact fun e => h e.symm
      simp [setInsert, h, hbeq]

/-- makeURISet membership is plain uri membership in the list. -/
theorem makeURISet_eq_any (rs : List SearchResult) (u : String) :
    makeURISet rs u = rs.any (fun r => r.uri == u) := by
  rw [makeURISet, foldl_setInsert_apply]
  simp

/-- A uri misses the map exactly when it misses the set. -/
theorem makeURIMap_isNone (rs : List SearchResult) (u : String) :
    (makeURIMap rs u).isNone = !(makeURISet rs u) := by
  rw [makeURIMap_eq_find_last, makeURISet_eq_any]
  cases h : rs.any (fun r => r.uri == u) with
  | true =>
    rw [List.any_eq_true] at h
    obtain ⟨x, hx, hpx⟩ := h
    cases hf : rs.reverse.find? (fun r => r.uri == u) with
    | none =>
      rw [List.find?_eq_none] at hf
      exact absurd hpx (by simpa using hf x (List.mem_reverse.mpr hx))
    | some y => simp
  | false =>
    rw [List.any_eq_false] at h
    have hf : rs.reverse.find? (fun r => r.uri == u) = none := by
      rw [List.find?_eq_none]
      intro x hx
      exact h x (List.mem_reverse.mp hx)
    rw [hf]
    simp

/-- Contribution of one current item to the running absolute-rank-change total. -/
def rankAbsContrib (lookup : String → Option SearchResult) (r : SearchResult) : Nat :=
  match lookup r.uri with
  | some p => (p.rank - r.rank).natAbs
  | none => 0

/-- Field-level behaviour of one classification-loop iteration. -/
theorem histStep_spec (acc : ComparisonStats × Nat) (found : Option SearchResult)
    (r : SearchResult) :
    ((histStep acc found r).1.improvedCount + (histStep acc found r).1.worsedCount
        + (histStep acc found r).1.unchangedCount + (histStep acc found r).1.newResults
      = acc.1.improvedCount + acc.1.worsedCount + acc.1.unchangedCount + acc.1.newResults + 1)
    ∧ (histStep acc found r).1.totalResults = acc.1.totalResults
    ∧ (histStep acc found r).1.removedCount = acc.1.removedCount
    ∧ (histStep acc found r).1.avgRankChange = acc.1.avgRankChange
    ∧ (histStep acc found r).1.newResults
        = acc.1.newResults + (if found.isNone then 1 else 0)
    ∧ (histStep acc found r).2
        = acc.2 + (match found with | some p => (p.rank - r.rank).natAbs | none => 0) := by
  cases found with
  | none =>
    refine ⟨?_, rfl, rfl, rfl, ?_, ?_⟩ <;> simp [histStep] <;> omega
  | some p =>
    by_cases h1 : (0 : Int) < p.rank - r.rank
    · refine ⟨?_, ?_, ?_, ?_, ?_, ?_⟩ <;> simp [histStep, h1] <;> omega
    · by_cases h2 : p.rank - r.rank < 0
      · refine ⟨?_, ?_, ?_, ?_, ?_, ?_⟩ <;> simp [histStep, h1, h2] <;> omega
      · refine ⟨?_, ?_, ?_, ?_, ?_, ?_⟩ <;> simp [histStep, h1, h2] <;> omega

/-- Field-level behaviour of the whole classification loop, for any lookup
function and starting accumulator. -/
theorem histFold_spec (lookup : String → Option SearchResult) (l : List SearchResult)
    (acc : ComparisonStats × Nat) :
    ((l.foldl (fun a r => histStep a (lookup r.uri) r) acc).1.improvedCount
        + (l.foldl (fun a r => histStep a (lookup r.uri) r) acc).1.worsedCount
        + (l.foldl (fun a r => histStep a (lookup r.uri) r) acc).1.unchangedCount
        + (l.foldl (fun a r => histStep a (lookup r.uri) r) acc).1.newResults
      = acc.1.improvedCount + acc.1.worsedCount + acc.1.unchangedCount + acc.1.newResults
        + l.length)
    ∧ (l.foldl (fun a r => histStep a (lookup r.uri) r) acc).1.totalResults
        = acc.1.totalResults
    ∧ (l.foldl (fun a r => histStep a (lookup r.uri) r) acc).1.removedCount
        = acc.1.removedCount
    ∧ (l.foldl (fun a r => histStep a (lookup r.uri) r) acc).1.avgRankChange
        = acc.1.avgRankChange
    ∧ (l.foldl (fun a r => histStep a (lookup r.uri) r) acc).1.newResults
        = acc.1.newResults + l.countP (fun r => (lookup r.uri).isNone)
    ∧ (l.foldl (fun a r => histStep a (lookup r.uri) r) acc).2
        = acc.2 + (l.map (rankAbsContrib lookup)).sum := by
  induction l generalizing acc with
  | nil => simp
  | cons r rest ih =>
    obtain ⟨s1, s2, s3, s4, s5, s6⟩ := histStep_spec acc (lookup r.uri) r
    obtain ⟨i1, i2, i3, i4, i5, i6⟩ := ih (histStep acc (lookup r.uri) r)
    simp only [List.foldl_cons, List.length_cons, List.countP_cons, List.map_cons,
      List.sum_cons]
    refine ⟨by omega, by rw [i2, s2], by rw [i3, s3], by rw [i4, s4], by omega, ?_⟩
    rw [i6, s6]
    simp only [rankAbsContrib]
    omega

/-- C1. Conservation: every current item is classified as exactly one of
improved / worsened / unchanged / new, so the four counts sum to
len(curr.Results), and TotalResults is len(curr.Results). -/
theorem claim_C1_conservation (curr prev : QueryResults) :
    (CalculateHistorical curr prev).improvedCount + (CalculateHistorical curr prev).worsedCount
        + (CalculateHistorical curr prev).unchangedCount
        + (CalculateHistorical curr prev).newResults
      = curr.results.length
    ∧ (CalculateHistorical curr prev).totalResults = curr.results.length := by
  have h := histFold_spec (makeURIMap prev.results) curr.results (initStats curr, 0)
  obtain ⟨h1, h2, -, -, -, -⟩ := h
  simp only [CalculateHistorical, calcHistoricalWith]
  simp only [initStats] at h1 h2 ⊢
  split <;> refine ⟨?_, ?_⟩ <;> dsimp only [] <;> omega

/-- C2. Symmetry of newness and removal: new(A, B) equals removed(B, A). -/
theorem claim_C2_new_removed_symmetry (A B : QueryResults) :
    (CalculateHistorical A B).newResults = (CalculateHistorical B A).removedCount := by
  have h := histFold_spec (makeURIMap B.results) A.results (initStats A, 0)
  obtain ⟨-, -, -, -, h5, -⟩ := h
  have hcongr : A.results.countP (fun r => (makeURIMap B.results r.uri).isNone)
      = A.results.countP (fun p => !(makeURISet B.results p.uri)) :=
    List.countP_congr (fun x _ => by rw [makeURIMap_isNone])
  simp only [CalculateHistorical, calcHistoricalWith]
  simp only [initStats] at h5 ⊢
  split <;> split <;> dsimp only [] <;> omega

/-- C8. Zero-division safety: with an empty current result list the guard
`len(curr.Results) > 0` is false, so AvgRankChange stays 0.0. -/
theorem claim_C8_empty_current_avg_zero (q alg desc t : String) (prev : QueryResults) :
    (CalculateHistorical
        { query := q, algorithm := alg, description := desc, runAt := t, results := [] }
        prev).avgRankChange = 0 := rfl

/-- C9. Last-write-wins uri lookup: makeURIMap (and the identical inline map
construction in CalculateHistorical) resolves a uri to the last element of the
list bearing that uri, so the classification and rank delta of a current item
are computed against the last occurrence of its uri in previous.Results. -/
theorem claim_C9_last_write_wins (curr prev : QueryResults) (rs : List SearchResult)
    (u : String) :
    makeURIMap rs u = rs.reverse.find? (fun r => r.uri == u)
    ∧ CalculateHistorical curr prev
        = calcHistoricalWith (fun v => prev.results.reverse.find? (fun r => r.uri == v))
            curr prev := by
  refine ⟨makeURIMap_eq_find_last rs u, ?_⟩
  unfold CalculateHistorical
  congr 1
  funext v
  exact makeURIMap_eq_find_last prev.results v

/-- Total absolute rank change accumulated by the classification loop of
CalculateHistorical: matched items contribute the absolute rank delta against
their previous-map entry, new items contribute nothing. -/
def totalAbsRankChange (curr prev : QueryResults) : Nat :=
  (curr.results.map (rankAbsContrib (makeURIMap prev.results))).sum

/-- Modelled from the spec sentence of C3 (average absolute rank change over
current-run items that also existed previously, divided by the number of
matched items), for comparison with the computation in the code. -/
def specAvgOverMatched (curr prev : QueryResults) : ℚ :=
  let matched := curr.results.filter (fun r => (makeURIMap prev.results r.uri).isSome)
  ((matched.map (rankAbsContrib (makeURIMap prev.results))).sum : ℚ) / (matched.length : ℚ)

/-- The code's AvgRankChange for a non-empty current list is the accumulated
total divided by len(curr.Results). -/
theorem avgRankChange_eq (curr prev : QueryResults) (h : curr.results.length ≠ 0) :
    (CalculateHistorical curr prev).avgRankChange
      = (totalAbsRankChange curr prev : ℚ) / (curr.results.length : ℚ) := by
  have hf := histFold_spec (makeURIMap prev.results) curr.results (initStats curr, 0)
  obtain ⟨-, -, -, -, -, h6⟩ := hf
  simp only [CalculateHistorical, calcHistoricalWith, totalAbsRankChange]
  rw [if_pos (Nat.pos_of_ne_zero h)]
  dsimp only []
  rw [h6]
  simp

def c3currA : SearchResult :=
  { rank := 1, title := "A", uri := "/a", date := "", contentType := ""
    algorithm := "", score := 0 }

def c3currB : SearchResult :=
  { rank := 2, title := "B", uri := "/b", date := "", contentType := ""
    algorithm := "", score := 0 }

def c3prevA : SearchResult :=
  { rank := 2, title := "A", uri := "/a", date := "", contentType := ""
    algorithm := "", score := 0 }

def c3curr : QueryResults :=
  { query := "q", algorithm := "alg", description := "", runAt := ""
    results := [c3currA, c3currB] }

def c3prev : QueryResults :=
  { query := "q", algorithm := "alg", description := "", runAt := ""
    results := [c3prevA] }

/-- C3, counterexample. Current has two items, one of which ("/a") matches
previous with |rank delta| 1; the code computes AvgRankChange = 1/2 (division
by len(curr.Results) = 2), while the claim's average over matched items would
be 1/1 = 1. -/
theorem claim_C3_counterexample :
    (CalculateHistorical c3curr c3prev).avgRankChange ≠ specAvgOverMatched c3curr c3prev
    ∧ c3curr.results ≠ []
    ∧ (c3curr.results.filter (fun r => (makeURIMap c3prev.results r.uri).isSome)).length
        = 1 := by
  have hne : c3curr.results.length ≠ 0 := by simp [c3curr]
  have hm : c3curr.results.filter (fun r => (makeURIMap c3prev.results r.uri).isSome)
      = [c3currA] := by rfl
  have ht : totalAbsRankChange c3curr c3prev = 1 := by rfl
  have hs : ([c3currA].map (rankAbsContrib (makeURIMap c3prev.results))).sum = 1 := by rfl
  refine ⟨?_, by simp [c3curr], by rw [hm]; rfl⟩
  rw [avgRankChange_eq c3curr c3prev hne, ht]
  simp only [specAvgOverMatched, hm, hs]
  have hl : c3curr.results.length = 2 := by rfl
  rw [hl]
  norm_num

/-- C3, amended. For a non-empty current list, AvgRankChange is the total
absolute rank change over matched items divided by len(curr.Results) (not by
the number of matched items). -/
theorem claim_C3_amended (q alg desc t : String) (r : SearchResult)
    (rs : List SearchResult) (prev : QueryResults) :
    (CalculateHistorical
        { query := q, algorithm := alg, description := desc, runAt := t, results := r :: rs }
        prev).avgRankChange
      = (totalAbsRankChange
            { query := q, algorithm := alg, description := desc, runAt := t
              results := r :: rs } prev : ℚ)
        / (((r :: rs).length : Nat) : ℚ) :=
  avgRankChange_eq _ _ (by simp)

/-- comparison.modeString. -/
def modeString : Mode → String
  | Mode.historical => "Historical"
  | Mode.crossQuery => "Cross-Query"
  | Mode.both => "Both"

/-- Comparison.GetSummary (comparison.go). The Go guard
`c.mode != ModeHistorical && c.mode != ModeBoth` returns the zero summary
early exactly for ModeCrossQuery; otherwise the loop skips current entries
with no previous counterpart (`i >= len(c.previous)`), i.e. it folds over the
index-wise zip of current and previous. -/
def GetSummary (c : Comparison) : Summary :=
  let base : Summary :=
    { mode := modeString c.mode, newResults := 0, removedResults := 0
      improvedRankings := 0, worsenedRankings := 0 }
  match c.mode with
  | Mode.crossQuery => base
  | _ =>
    (c.current.zip c.previous).foldl (fun s cp =>
      let stats := CalculateHistorical cp.1 cp.2
      { s with newResults := s.newResults + stats.newResults
               removedResults := s.removedResults + stats.removedCount
               improvedRankings := s.improvedRankings + stats.improvedCount
               worsenedRankings := s.worsenedRankings + stats.worsedCount }) base

/-- C10. A cross-query Comparison takes GetSummary's early return: the summary
is all zeros with mode label "Cross-Query", whatever the data. -/
theorem claim_C10_crossquery_summary (current previous : List QueryResults)
    (options : Options) :
    GetSummary (NewComparison current previous options Mode.crossQuery)
      = { mode := "Cross-Query", newResults := 0, removedResults := 0
          improvedRankings := 0, worsenedRankings := 0 } := rfl

/-- comparison.RankingChange (formatter.go). -/
structure RankingChange where
  isNew : Bool
  rank : Int
  title : String
  uri : String
  score : ℚ
  contentType : String
  date : String
  prevRank : Int
  prevScore : ℚ
  isUnchanged : Bool
deriving DecidableEq

/-- Go zero value of models.SearchResult (what a map read returns on a miss). -/
def zeroSearchResult : SearchResult :=
  { rank := 0, title := "", uri := "", date := "", contentType := ""
    algorithm := "", score := 0 }

/-- Formatter.determineRankingChange (formatter.go). -/
def determineRankingChange (curr prev : SearchResult) (existedInPrevious : Bool) :
    RankingChange :=
  let change : RankingChange :=
    { isNew := false, rank := curr.rank, title := curr.title, uri := curr.uri
      score := curr.score, contentType := curr.contentType, date := curr.date
      prevRank := 0, prevScore := 0, isUnchanged := false }
  if !existedInPrevious then { change with isNew := true }
  else if prev.rank == curr.rank then
    { change with isUnchanged := true, prevScore := prev.score }
  else { change with prevRank := prev.rank, prevScore := prev.score }

/-- The display cap of writeRankingChanges / writeCrossQueryResults:
start from the list length, clamp to MaxRankDisplay only when that is
positive and smaller. -/
def displayCount (maxRankDisplay : Int) (n : Nat) : Nat :=
  if 0 < maxRankDisplay ∧ maxRankDisplay < (n : Int) then maxRankDisplay.toNat else n

/-- The sequence of writeRankingChangeRow calls made by
Formatter.writeRankingChanges: one RankingChange per current item within the
display cap, classified through the previous-run uri map (a miss passes the Go
zero value together with existed=false). -/
def rankingChangesRows (opts : Options) (curr prev : QueryResults) : List RankingChange :=
  let prevMap := makeURIMap prev.results
  (curr.results.take (displayCount opts.maxRankDisplay curr.results.length)).map (fun r =>
    match prevMap r.uri with
    | some prevResult => determineRankingChange r prevResult true
    | none => determineRankingChange r zeroSearchResult false)

/-- The rows printed by Formatter.writeRemovedResults: previous items whose uri
is absent from the set built over the full current list (no display cap). -/
def removedResultsRows (curr prev : QueryResults) : List SearchResult :=
  let currURIs := makeURISet curr.results
  prev.results.filter (fun p => !(currURIs p.uri))

/-- Any-over-map: testing p after mapping f is testing their composition. -/
theorem anyOfMap {α β : Type} (l : List α) (f : α → β) (p : β → Bool) :
    (l.map f).any p = l.any (fun a => p (f a)) := by
  induction l with
  | nil => rfl
  | cons a rest ih => simp [ih]

/-- C4. The ranking-changes section processes min(cap, len) current items when
the cap is positive and all of them otherwise, while the removed section lists
exactly the previous items whose uri does not occur anywhere in the full
current list, for every Options value (so independently of MaxRankDisplay). -/
theorem claim_C4_cap_and_removed (opts : Options) (curr prev : QueryResults) :
    (rankingChangesRows opts curr prev).length
      = (if 0 < opts.maxRankDisplay
          then min opts.maxRankDisplay.toNat curr.results.length
          else curr.results.length)
    ∧ removedResultsRows curr prev
      = prev.results.filter (fun p => !((curr.results.map SearchResult.uri).contains p.uri)) := by
  constructor
  · have hlt : (rankingChangesRows opts curr prev).length
        = min (displayCount opts.maxRankDisplay curr.results.length) curr.results.length := by
      simp [rankingChangesRows]
    rw [hlt]
    unfold displayCount
    split <;> split <;> omega
  · apply List.filter_congr
    intro p _
    congr 1
    rw [makeURISet_eq_any, List.contains_eq_any_beq, anyOfMap]
    rw [Bool.eq_iff_iff]
    simp only [List.any_eq_true, beq_iff_eq]
    constructor
    · rintro ⟨x, hx, e⟩
      exact ⟨x, hx, e.symm⟩
    · rintro ⟨x, hx, e⟩
      exact ⟨x, hx, e.symm⟩

/-- One write-helper call of the report renderers. Each constructor stands for
one write helper of formatter.go / comparison.go and carries the data that
helper formats; the fixed surrounding text (labels, separators, icons, %-format
details) is determined by the constructor. -/
inductive Entry where
  | genHeader (runAt : String)
  | infoQueryMissing (idx : Nat)
  | queryHeader (query algorithm description : String)
  | statsBlock (stats : ComparisonStats)
  | rankingChangesHeader
  | newRow (c : RankingChange)
  | unchangedRow (c : RankingChange)
  | rankRow (c : RankingChange)
  | removedHeader
  | removedRow (r : SearchResult)
  | noneLine
  | histSummary (queries totalNew totalRemoved totalImproved totalWorsened : Nat)
  | warnNeedTwo
  | crossPairHeader (q1 q2 a1 a2 : String)
  | crossStatsBlock (stats : CrossQueryStats)
  | onlyInQ1Header
  | onlyInQ1Row (r : SearchResult)
  | onlyInQ2Header
  | onlyInQ2Row (r : SearchResult)
  | rankDiffHeader
  | rankDiffRow (r1 r2 : SearchResult)
  | bothHistTitle
  | noPreviousNote
  | bothDivider
  | bothCrossTitle
deriving DecidableEq

/-- Formatter.writeRankingChangeRow: dispatch on the change kind; an unchanged
row prints nothing unless ShowUnchanged is set. -/
def renderRankingRow (opts : Options) (c : RankingChange) : List Entry :=
  if c.isNew then [Entry.newRow c]
  else if c.isUnchanged then
    (if opts.showUnchanged then [Entry.unchangedRow c] else [])
  else [Entry.rankRow c]

/-- Formatter.writeRemovedResults: header, one row per removed previous item
(computed over the full current list), and a None line when there are none. -/
def removedSection (curr prev : QueryResults) : List Entry :=
  let rows := removedResultsRows curr prev
  [Entry.removedHeader] ++ rows.map Entry.removedRow
    ++ (if rows.length = 0 then [Entry.noneLine] else [])

/-- The per-pair body of Formatter.FormatHistorical: query header, statistics
block, ranking-changes section, removed section. -/
def histPairSection (opts : Options) (curr prev : QueryResults) : List Entry :=
  [Entry.queryHeader curr.query curr.algorithm curr.description,
   Entry.statsBlock (CalculateHistorical curr prev),
   Entry.rankingChangesHeader]
    ++ (rankingChangesRows opts curr prev).flatMap (renderRankingRow opts)
    ++ removedSection curr prev

/-- The totals of Formatter.writeSummary: sums of the per-pair counters over
index-aligned (current, previous) pairs. -/
def histTotals (current previous : List QueryResults) : Nat × Nat × Nat × Nat :=
  (current.zip previous).foldl (fun t cp =>
    let stats := CalculateHistorical cp.1 cp.2
    (t.1 + stats.newResults, t.2.1 + stats.removedCount,
     t.2.2.1 + stats.improvedCount, t.2.2.2 + stats.worsedCount))
    (0, 0, 0, 0)

/-- Formatter.FormatHistorical: fails on an empty current list; otherwise a
generated-at header, then per index either the pair section or an INFO line
when previous has no counterpart, then the summary block. -/
def FormatHistorical (opts : Options) (current previous : List QueryResults) :
    Except String (List Entry) :=
  match current with
  | [] => Except.error "no current results to format"
  | c0 :: _ =>
    let body := current.enum.flatMap (fun ic =>
      match previous[ic.1]? with
      | some prev => histPairSection opts ic.2 prev
      | none => [Entry.infoQueryMissing (ic.1 + 1)])
    let t := histTotals current previous
    Except.ok ([Entry.genHeader c0.runAt] ++ body
      ++ [Entry.histSummary current.length t.1 t.2.1 t.2.2.1 t.2.2.2])

/-- Go zero value of models.QueryResults, the default for list indexing. -/
def zeroQueryResults : QueryResults :=
  { query := "", algorithm := "", description := "", runAt := "", results := [] }

/-- The index pairs visited by the nested loop of FormatCrossQuery
(`for i := 0; i < n-1; i++ { for j := i+1; j < n; j++ }`). -/
def crossPairs (n : Nat) : List (Nat × Nat) :=
  (List.range (n - 1)).flatMap (fun i =>
    (List.range' (i + 1) (n - 1 - i)).map (fun j => (i, j)))

/-- Formatter.writeOnlyInQuery1Results. -/
def onlyInQ1Section (q1 : QueryResults) (q2Map : String → Option SearchResult)
    (dc : Nat) : List Entry :=
  let rows := (q1.results.take dc).filter (fun r => (q2Map r.uri).isNone)
  [Entry.onlyInQ1Header] ++ rows.map Entry.onlyInQ1Row
    ++ (if rows.length = 0 then [Entry.noneLine] else [])

/-- Formatter.writeOnlyInQuery2Results (the display count is the one computed
from q1's list; the loop additionally stops at q2's length, which `take` does). -/
def onlyInQ2Section (q2 : QueryResults) (q1Map : String → Option SearchResult)
    (dc : Nat) : List Entry :=
  let rows := (q2.results.take dc).filter (fun r => (q1Map r.uri).isNone)
  [Entry.onlyInQ2Header] ++ rows.map Entry.onlyInQ2Row
    ++ (if rows.length = 0 then [Entry.noneLine] else [])

/-- Formatter.writeCrossQueryRankingDifferences: capped common items whose
ranks differ. -/
def rankDiffSection (q1 : QueryResults) (q2Map : String → Option SearchResult)
    (dc : Nat) : List Entry :=
  let rows := (q1.results.take dc).filterMap (fun r1 =>
    match q2Map r1.uri with
    | some r2 => if r1.rank ≠ r2.rank then some (r1, r2) else none
    | none => none)
  [Entry.rankDiffHeader] ++ rows.map (fun p => Entry.rankDiffRow p.1 p.2)
    ++ (if rows.length = 0 then [Entry.noneLine] else [])

/-- The per-pair body of FormatCrossQuery: pair header, statistics block and
the three itemized subsections (writeCrossQueryResults). -/
def crossPairSection (opts : Options) (qs : List QueryResults) (i j : Nat) :
    List Entry :=
  let q1 := qs.getD i zeroQueryResults
  let q2 := qs.getD j zeroQueryResults
  let q1Map := makeURIMap q1.results
  let q2Map := makeURIMap q2.results
  let dc := displayCount opts.maxRankDisplay q1.results.length
  [Entry.crossPairHeader q1.query q2.query q1.algorithm q2.algorithm,
   Entry.crossStatsBlock (CalculateCrossQuery q1 q2)]
    ++ onlyInQ1Section q1 q2Map dc
    ++ onlyInQ2Section q2 q1Map dc
    ++ rankDiffSection q1 q2Map dc

/-- Formatter.FormatCrossQuery: with fewer than 2 queries it writes one warning
line and succeeds; otherwise a generated-at header and one section per ordered
index pair i < j. -/
def FormatCrossQuery (opts : Options) (queries : List QueryResults) : List Entry :=
  match queries with
  | [] => [Entry.warnNeedTwo]
  | [_] => [Entry.warnNeedTwo]
  | q0 :: _ :: _ =>
    [Entry.genHeader q0.runAt]
      ++ (crossPairs queries.length).flatMap (fun p => crossPairSection opts queries p.1 p.2)

/-- Comparison.generateHistorical (comparison.go): precondition check, then
FormatHistorical. -/
def generateHistorical (c : Comparison) : Except String (List Entry) :=
  if c.previous.length = 0 then Except.error "no previous results to compare against"
  else FormatHistorical c.options c.current c.previous

/-- Comparison.generateBoth (comparison.go): historical title block, then the
historical section (or an explicit no-previous note), then the hash divider,
the cross-query title block and the cross-query section; an error from
FormatHistorical aborts the whole report. -/
def generateBoth (c : Comparison) : Except String (List Entry) :=
  match (if 0 < c.previous.length
          then FormatHistorical c.options c.current c.previous
          else Except.ok [Entry.noPreviousNote]) with
  | Except.error e => Except.error e
  | Except.ok hist =>
    Except.ok ([Entry.bothHistTitle] ++ hist
      ++ [Entry.bothDivider, Entry.bothCrossTitle]
      ++ FormatCrossQuery c.options c.current)

/-- Comparison.Generate (comparison.go): dispatch on the mode. -/
def Generate (c : Comparison) : Except String (List Entry) :=
  match c.mode with
  | Mode.historical => generateHistorical c
  | Mode.crossQuery => Except.ok (FormatCrossQuery c.options c.current)
  | Mode.both => generateBoth c

/-- C5. Requesting a historical comparison with an empty previous set makes
Generate fail with the precondition error, while cross-query generation over
fewer than 2 queries (zero or one) writes the single warning line and returns
successfully. -/
theorem claim_C5_precondition_vs_warning (curr prevq : List QueryResults)
    (q : QueryResults) (opts : Options) :
    Generate (NewComparison curr [] opts Mode.historical)
        = Except.error "no previous results to compare against"
    ∧ Generate (NewComparison [] prevq opts Mode.crossQuery)
        = Except.ok [Entry.warnNeedTwo]
    ∧ Generate (NewComparison [q] prevq opts Mode.crossQuery)
        = Except.ok [Entry.warnNeedTwo] :=
  ⟨rfl, rfl, rfl⟩

/-- C6. In both mode, the report is the historical title block, then the
historical section, then the hash divider and the cross-query title, then the
cross-query section; with no previous results the historical section is the
explicit no-previous note and the cross-query section is still produced. -/
theorem claim_C6_both_mode (curr prev : List QueryResults) (opts : Options)
    (es : List Entry) :
    Generate (NewComparison curr [] opts Mode.both)
        = Except.ok ([Entry.bothHistTitle, Entry.noPreviousNote, Entry.bothDivider,
            Entry.bothCrossTitle] ++ FormatCrossQuery opts curr)
    ∧ (prev ≠ [] → FormatHistorical opts curr prev = Except.ok es →
        Generate (NewComparison curr prev opts Mode.both)
          = Except.ok ([Entry.bothHistTitle] ++ es
              ++ [Entry.bothDivider, Entry.bothCrossTitle] ++ FormatCrossQuery opts curr)) := by
  constructor
  · rfl
  · intro hne hok
    have hp : (0 : Nat) < prev.length := List.length_pos.mpr hne
    simp only [Generate, NewComparison, generateBoth]
    rw [if_pos hp, hok]

def wQR : QueryResults :=
  { query := "q1", algorithm := "alg", description := "", runAt := "t", results := [] }

def wOpts : Options :=
  { showUnchanged := true, highlightNew := true, showScores := true, maxRankDisplay := 0 }

def wHistEntries : List Entry :=
  [Entry.genHeader "t",
   Entry.queryHeader "q1" "alg" "",
   Entry.statsBlock
     { query := "q1", algorithm := "alg", totalResults := 0, newResults := 0
       removedCount := 0, improvedCount := 0, worsedCount := 0, unchangedCount := 0
       avgRankChange := 0 },
   Entry.rankingChangesHeader,
   Entry.removedHeader, Entry.noneLine,
   Entry.histSummary 1 0 0 0 0]

/-- Witness for C6 at a concrete one-query current and previous run. -/
theorem claim_C6_witness :
    Generate (NewComparison [wQR] [wQR] wOpts Mode.both)
      = Except.ok ([Entry.bothHistTitle] ++ wHistEntries
          ++ [Entry.bothDivider, Entry.bothCrossTitle] ++ FormatCrossQuery wOpts [wQR]) :=
  (claim_C6_both_mode [wQR] [wQR] wOpts wHistEntries).2 (by simp) (by rfl)

/-- Recognizer for the cross-query pair-header entry. -/
def isCrossHeader : Entry → Bool
  | Entry.crossPairHeader _ _ _ _ => true
  | _ => false

theorem countP_onlyInQ1Rows (l : List SearchResult) :
    (l.map Entry.onlyInQ1Row).countP isCrossHeader = 0 :=
  List.countP_eq_zero.mpr (by
    intro x hx
    obtain ⟨a, -, rfl⟩ := List.mem_map.mp hx
    simp [isCrossHeader])

theorem countP_onlyInQ2Rows (l : List SearchResult) :
    (l.map Entry.onlyInQ2Row).countP isCrossHeader = 0 :=
  List.countP_eq_zero.mpr (by
    intro x hx
    obtain ⟨a, -, rfl⟩ := List.mem_map.mp hx
    simp [isCrossHeader])

theorem countP_rankDiffRows (l : List (SearchResult × SearchResult)) :
    (l.map (fun p => Entry.rankDiffRow p.1 p.2)).countP isCrossHeader = 0 :=
  List.countP_eq_zero.mpr (by
    intro x hx
    obtain ⟨a, -, rfl⟩ := List.mem_map.mp hx
    simp [isCrossHeader])

theorem countP_noneIf (c : Prop) [Decidable c] :
    (if c then [Entry.noneLine] else []).countP isCrossHeader = 0 := by
  split <;> rfl

/-- Each pair section carries exactly one pair header. -/
theorem crossPairSection_one_header (opts : Options) (qs : List QueryResults) (i j : Nat) :
    (crossPairSection opts qs i j).countP isCrossHeader = 1 := by
  simp only [crossPairSection, onlyInQ1Section, onlyInQ2Section, rankDiffSection,
    List.countP_append, List.countP_cons, List.countP_nil,
    countP_onlyInQ1Rows, countP_onlyInQ2Rows, countP_rankDiffRows, countP_noneIf]
  rfl

/-- The pair loop emits one header per visited index pair. -/
theorem countP_flatMap_headers (opts : Options) (qs : List QueryResults)
    (L : List (Nat × Nat)) :
    ((L.flatMap (fun p => crossPairSection opts qs p.1 p.2)).countP isCrossHeader)
      = L.length := by
  induction L with
  | nil => rfl
  | cons p rest ih =>
    simp only [List.flatMap_cons, List.countP_append, ih,
      crossPairSection_one_header, List.length_cons]
    omega

/-- Sum of the descending sequence m, m-1, ..., 1. -/
theorem sumDesc (m : Nat) : (((List.range m).map (fun i => m - i)).sum) * 2 = m * (m + 1) := by
  induction m with
  | zero => rfl
  | succ k ih =>
    rw [List.range_succ_eq_map]
    simp only [List.map_cons, List.map_map, List.sum_cons, Nat.sub_zero]
    have he : (List.range k).map ((fun i => k + 1 - i) ∘ Nat.succ)
        = (List.range k).map (fun i => k - i) :=
      List.map_congr_left (fun a _ => by simp [Function.comp, Nat.succ_sub_succ])
    rw [he]
    have h2 : (k + 1 + ((List.range k).map (fun i => k - i)).sum) * 2
        = (k + 1) * 2 + (((List.range k).map (fun i => k - i)).sum) * 2 := by ring
    rw [h2, ih]
    ring

/-- Twice the number of visited pairs is n * (n - 1). -/
theorem crossPairs_length (n : Nat) : (crossPairs n).length * 2 = n * (n - 1) := by
  have h1 : (crossPairs n).length = ((List.range (n - 1)).map (fun i => n - 1 - i)).sum := by
    simp only [crossPairs, List.flatMap, List.length_flatten, List.map_map]
    apply congrArg List.sum
    apply List.map_congr_left
    intro x _
    simp
  rw [h1]
  have h := sumDesc (n - 1)
  cases n with
  | zero => simpa using h
  | succ k => simpa [Nat.succ_sub_one, Nat.mul_comm] using h

/-- The visited pairs are exactly the pairs (i, j) with i < j < n. -/
theorem crossPairs_mem (n : Nat) (p : Nat × Nat) :
    p ∈ crossPairs n ↔ p.1 < p.2 ∧ p.2 < n := by
  obtain ⟨a, b⟩ := p
  simp only [crossPairs, List.mem_flatMap, List.mem_map, List.mem_range, List.mem_range']
  constructor
  · rintro ⟨i, hi, j, ⟨k, hk, rfl⟩, heq⟩
    obtain ⟨rfl, rfl⟩ := Prod.mk.injEq .. |>.mp heq
    constructor <;> omega
  · rintro ⟨hab, hbn⟩
    exact ⟨a, by omega, b, ⟨b - (a + 1), by omega, by omega⟩, rfl⟩

/-- The visited pairs are strictly increasing in lexicographic order. -/
theorem crossPairs_pairwise (n : Nat) :
    (crossPairs n).Pairwise (fun p q => p.1 < q.1 ∨ (p.1 = q.1 ∧ p.2 < q.2)) := by
  rw [crossPairs, List.pairwise_flatMap]
  constructor
  · intro i _
    rw [List.pairwise_map]
    exact (List.pairwise_lt_range' (i + 1) (n - 1 - i)).imp (fun h => Or.inr ⟨rfl, h⟩)
  · refine (List.pairwise_lt_range (n - 1)).imp ?_
    intro i1 i2 h x hx y hy
    obtain ⟨j1, -, rfl⟩ := List.mem_map.mp hx
    obtain ⟨j2, -, rfl⟩ := List.mem_map.mp hy
    exact Or.inl h

/-- No pair is visited twice. -/
theorem crossPairs_nodup (n : Nat) : (crossPairs n).Nodup :=
  (crossPairs_pairwise n).imp (fun h => by
    intro heq
    subst heq
    rcases h with h | ⟨h1, h2⟩ <;> omega)

/-- C7. For a current run of N >= 2 queries, FormatCrossQuery emits exactly
N*(N-1)/2 pair sections, and the visited index pairs are exactly the pairs
(i, j) with i < j < N, each exactly once, in index order. -/
theorem claim_C7_pair_iteration (opts : Options) (a b : QueryResults)
    (rest : List QueryResults) :
    (FormatCrossQuery opts (a :: b :: rest)).countP isCrossHeader
        = (a :: b :: rest).length * ((a :: b :: rest).length - 1) / 2
    ∧ (∀ p : Nat × Nat, p ∈ crossPairs (a :: b :: rest).length
        ↔ p.1 < p.2 ∧ p.2 < (a :: b :: rest).length)
    ∧ (crossPairs (a :: b :: rest).length).Nodup
    ∧ (crossPairs (a :: b :: rest).length).Pairwise
        (fun p q => p.1 < q.1 ∨ (p.1 = q.1 ∧ p.2 < q.2)) := by
  refine ⟨?_, fun p => crossPairs_mem _ p, crossPairs_nodup _, crossPairs_pairwise _⟩
  have h1 : FormatCrossQuery opts (a :: b :: rest)
      = [Entry.genHeader a.runAt] ++ (crossPairs (a :: b :: rest).length).flatMap
          (fun p => crossPairSection opts (a :: b :: rest) p.1 p.2) := rfl
  rw [h1, List.countP_append, countP_flatMap_headers]
  have h3 : (a :: b :: rest).length * ((a :: b :: rest).length - 1) / 2
      = (crossPairs (a :: b :: rest).length).length :=
    Nat.div_eq_of_eq_mul_left (by norm_num) (crossPairs_length (a :: b :: rest).length).symm
  rw [h3]
  simp [List.countP_cons, List.countP_nil, isCrossHeader]
